import Mathlib

/-
Verification of the session and forwarding orchestrator of the
tg-smart-folders-bot repository.  The Lean definitions below are a shallow
embedding of the Python source files app/handlers.py, app/queue_manager.py
and app/session.py: dictionaries become association lists, asyncio tasks
become explicit task records with a status, wall-clock time is an explicit
natural-number parameter (seconds), and remote calls are modelled by
explicit outcome values that the caller passes in.
-/

/-! ## Association lists (model of Python dict) -/

/-- Lookup in an association list; models dict subscripting and the
membership test x in d. -/
def alookup {α β : Type} [DecidableEq α] (k : α) : List (α × β) → Option β
  | [] => none
  | e :: t => if e.1 = k then some e.2 else alookup k t

/-- Remove every binding of the key; models del d[k]. -/
def aerase {α β : Type} [DecidableEq α] (k : α) : List (α × β) → List (α × β)
  | [] => []
  | e :: t => if e.1 = k then aerase k t else e :: aerase k t

/-- Bind a key to a value; models d[k] = v. -/
def ainsert {α β : Type} [DecidableEq α] (k : α) (v : β) (l : List (α × β)) :
    List (α × β) :=
  (k, v) :: aerase k l

theorem alookup_aerase_self {α β : Type} [DecidableEq α] (k : α)
    (l : List (α × β)) : alookup k (aerase k l) = none := by
  induction l with
  | nil => rfl
  | cons e t ih =>
    by_cases h : e.1 = k
    · simp [aerase, h, ih]
    · simp [aerase, alookup, h, ih]

theorem alookup_aerase_ne {α β : Type} [DecidableEq α] {k k' : α}
    (l : List (α × β)) (h : k' ≠ k) :
    alookup k' (aerase k l) = alookup k' l := by
  have hkk : k ≠ k' := fun hx => h hx.symm
  induction l with
  | nil => rfl
  | cons e t ih =>
    by_cases he : e.1 = k
    · simp [aerase, he, alookup, hkk, ih]
    · by_cases he' : e.1 = k'
      · simp [aerase, he, alookup, he', h]
      · simp [aerase, he, alookup, he', ih]

theorem alookup_ainsert_self {α β : Type} [DecidableEq α] (k : α) (v : β)
    (l : List (α × β)) : alookup k (ainsert k v l) = some v := by
  simp [ainsert, alookup]

theorem alookup_ainsert_ne {α β : Type} [DecidableEq α] {k k' : α} (v : β)
    (l : List (α × β)) (h : k' ≠ k) :
    alookup k' (ainsert k v l) = alookup k' l := by
  have : k ≠ k' := fun hx => h hx.symm
  simp [ainsert, alookup, this, alookup_aerase_ne l h]

theorem alookup_filter_none {α β : Type} [DecidableEq α] {k : α}
    {l : List (α × β)} (p : α × β → Bool) (h : alookup k l = none) :
    alookup k (l.filter p) = none := by
  induction l with
  | nil => rfl
  | cons e t ih =>
    by_cases he : e.1 = k
    · simp [alookup, he] at h
    · simp only [alookup, he, if_false] at h
      by_cases hp : p e
      · simp [List.filter_cons_of_pos hp, alookup, he, ih h]
      · simp [List.filter_cons_of_neg (by simpa using hp), ih h]

theorem aerase_of_alookup_none {α β : Type} [DecidableEq α] {k : α}
    {l : List (α × β)} (h : alookup k l = none) : aerase k l = l := by
  induction l with
  | nil => rfl
  | cons e t ih =>
    by_cases he : e.1 = k
    · simp [alookup, he] at h
    · simp only [alookup, he, if_false] at h
      simp [aerase, he, ih h]

/-! ## Configuration constants (app/config.py defaults) -/

def QUEUE_MAX_SIZE : Nat := 1000

def QUEUE_TIMEOUT : Nat := 60

/-- FORWARD_DELAY is 0.5 seconds in config.py; modelled as a rational. -/
def FORWARD_DELAY : ℚ := 1 / 2

/-! ## Deduplication cache (handlers.py, MessageHandlers) -/

/-- The parts of a Telethon message that the dedup key reads. -/
structure Message where
  chat_id : Int
  id : Int
  deriving DecidableEq, Repr

/-- self.cache_ttl = 60 in MessageHandlers. -/
def cache_ttl : Nat := 60

/-- The dedup key built by MessageHandlers._get_message_key: the f-string
joins chat id, message id and the time bucket int(time.time() / cache_ttl);
the triple is kept unformatted since the formatting is injective. -/
def get_message_key (m : Message) (now : Nat) : Int × Int × Nat :=
  (m.chat_id, m.id, now / cache_ttl)

/-- MessageHandlers._is_duplicate: returns whether the key is already
cached, and the updated cache (insertion of the key followed by lazy
eviction of entries older than cache_ttl). -/
def is_duplicate (cache : List ((Int × Int × Nat) × Nat)) (m : Message)
    (now : Nat) : Bool × List ((Int × Int × Nat) × Nat) :=
  let key := get_message_key m now
  if (alookup key cache).isSome then
    (true, cache)
  else
    let c1 := ainsert key now cache
    let c2 := c1.filter (fun kv => decide (now - kv.2 < cache_ttl))
    (false, c2)

theorem is_duplicate_of_fresh (cache : List ((Int × Int × Nat) × Nat))
    (m : Message) (now : Nat)
    (h : alookup (get_message_key m now) cache = none) :
    (is_duplicate cache m now).1 = false := by
  simp [is_duplicate, h]

theorem is_duplicate_of_cached (cache : List ((Int × Int × Nat) × Nat))
    (m : Message) (now : Nat)
    (h : (alookup (get_message_key m now) cache).isSome = true) :
    (is_duplicate cache m now).1 = true := by
  simp [is_duplicate, h]

theorem is_duplicate_fresh_snd (cache : List ((Int × Int × Nat) × Nat))
    (m : Message) (now : Nat)
    (h : alookup (get_message_key m now) cache = none) :
    (is_duplicate cache m now).2 =
      (ainsert (get_message_key m now) now cache).filter
        (fun kv => decide (now - kv.2 < cache_ttl)) := by
  simp [is_duplicate, h]

/-- C1 counterexample: the same (chat 1, message 100) delivered at t = 59
and t = 61, only 2 seconds apart and thus within the 60 second dedup
window, is NOT classified as a duplicate on the second delivery, because
the two instants fall in different time buckets.  This refutes the claim
that any second delivery within the window of the first is deduplicated. -/
theorem C1_counterexample :
    (is_duplicate [] ⟨1, 100⟩ 59).1 = false ∧
    (is_duplicate (is_duplicate [] ⟨1, 100⟩ 59).2 ⟨1, 100⟩ 61).1 = false ∧
    61 - 59 < 60 := by decide

/-- C1 amended: deduplication is decided by the time bucket
floor(now / 60), not by elapsed time.  If the first delivery of a
(chat, message) pair is not already cached, it is classified as fresh;
a second delivery in the same bucket is classified as a duplicate, while
a second delivery in a different bucket (even seconds later) is again
classified as fresh when its own key is not cached. -/
theorem C1_dedup_bucket (cache : List ((Int × Int × Nat) × Nat))
    (m : Message) (t1 t2 : Nat)
    (h1 : alookup (get_message_key m t1) cache = none) :
    (is_duplicate cache m t1).1 = false ∧
    (t1 / cache_ttl = t2 / cache_ttl →
      (is_duplicate (is_duplicate cache m t1).2 m t2).1 = true) ∧
    (t1 / cache_ttl ≠ t2 / cache_ttl →
      alookup (get_message_key m t2) cache = none →
      (is_duplicate (is_duplicate cache m t1).2 m t2).1 = false) := by
  have hsnd := is_duplicate_fresh_snd cache m t1 h1
  refine ⟨is_duplicate_of_fresh cache m t1 h1, ?_, ?_⟩
  · intro hb
    have hkey : get_message_key m t2 = get_message_key m t1 := by
      simp [get_message_key, hb]
    have hcache : alookup (get_message_key m t2) (is_duplicate cache m t1).2 =
        some t1 := by
      rw [hsnd, hkey, ainsert]
      simp [List.filter_cons, alookup, cache_ttl]
    refine is_duplicate_of_cached _ m t2 ?_
    rw [hcache]; rfl
  · intro hb h2
    have hkey : get_message_key m t2 ≠ get_message_key m t1 := by
      intro hx
      apply hb
      have hcomp := congrArg (fun p => p.2.2) hx
      simpa [get_message_key] using hcomp.symm
    have hnone : alookup (get_message_key m t2) (is_duplicate cache m t1).2 =
        none := by
      rw [hsnd]
      refine alookup_filter_none _ ?_
      rw [alookup_ainsert_ne _ _ hkey]
      exact h2
    exact is_duplicate_of_fresh _ m t2 hnone

/-- Witness for C1_dedup_bucket at a concrete input: first delivery at
t = 10 is fresh, second delivery at t = 20 (same bucket) is a duplicate,
and a delivery at t = 70 (next bucket) would be fresh again. -/
theorem C1_dedup_bucket_witness :
    alookup (get_message_key ⟨1, 100⟩ 10) ([] : List ((Int × Int × Nat) × Nat)) = none ∧
    ((is_duplicate [] (⟨1, 100⟩ : Message) 10).1 = false ∧
     (10 / cache_ttl = 20 / cache_ttl →
       (is_duplicate (is_duplicate [] (⟨1, 100⟩ : Message) 10).2 ⟨1, 100⟩ 20).1 = true) ∧
     (10 / cache_ttl ≠ 20 / cache_ttl →
       alookup (get_message_key ⟨1, 100⟩ 20) ([] : List ((Int × Int × Nat) × Nat)) = none →
       (is_duplicate (is_duplicate [] (⟨1, 100⟩ : Message) 10).2 ⟨1, 100⟩ 20).1 = false)) :=
  ⟨by decide, C1_dedup_bucket [] ⟨1, 100⟩ 10 20 (by decide)⟩

/-! ## Circuit breaker (session.py, circuit_breaker decorator) -/

/-- State captured by the closure variables failures and last_failure_time
of the circuit_breaker decorator. -/
structure BreakerState where
  failures : Nat
  last_failure_time : Nat
  deriving DecidableEq, Repr

/-- What one call through the wrapper does: short-circuit (the wrapper
returns None without invoking the wrapped function), return the result of
a successful underlying call, or re-raise the exception of a failing
underlying call. -/
inductive CallResult where
  | shortCircuit
  | returnedOk
  | raisedError
  deriving DecidableEq, Repr

/-- One call through the wrapper produced by circuit_breaker in
session.py.  succeeds tells whether the underlying awaited function would
succeed at this call.  Natural-number subtraction matches the float
subtraction because time is monotone (and a negative difference would be
below the window in both models). -/
def circuit_breaker (max_failures reset_timeout : Nat) (st : BreakerState)
    (now : Nat) (succeeds : Bool) : CallResult × BreakerState :=
  if max_failures ≤ st.failures ∧ now - st.last_failure_time < reset_timeout then
    (CallResult.shortCircuit, st)
  else
    let f0 := if max_failures ≤ st.failures then 0 else st.failures
    if succeeds then
      (CallResult.returnedOk, ⟨0, st.last_failure_time⟩)
    else
      (CallResult.raisedError, ⟨f0 + 1, now⟩)

/-- Fold a list of (time, succeeds) calls through the breaker. -/
def breaker_run (calls : List (Nat × Bool)) (st : BreakerState) :
    BreakerState :=
  calls.foldl (fun s c => (circuit_breaker 5 300 s c.1 c.2).2) st

/-- C3 counterexample: after five consecutive failures (at t = 0..4) the
call at t = 100 short-circuits as claimed, but once the 300 second window
has elapsed the breaker does NOT move to a one-trial half-open state: the
failure counter is reset to zero, so the failing trial call at t = 400 and
the next call at t = 401 BOTH reach the underlying operation, refuting
that exactly one trial call is allowed through. -/
theorem C3_counterexample :
    (circuit_breaker 5 300 (breaker_run [(0, false), (1, false), (2, false),
        (3, false), (4, false)] ⟨0, 0⟩) 100 false).1 = CallResult.shortCircuit ∧
    (circuit_breaker 5 300 (breaker_run [(0, false), (1, false), (2, false),
        (3, false), (4, false)] ⟨0, 0⟩) 400 false).1 ≠ CallResult.shortCircuit ∧
    (circuit_breaker 5 300 (breaker_run [(0, false), (1, false), (2, false),
        (3, false), (4, false), (400, false)] ⟨0, 0⟩) 401 false).1 ≠
      CallResult.shortCircuit := by decide

/-- C3 amended: with the default parameters (5 failures, 300 seconds),
once the failure count has reached 5, a call within 300 seconds of the
last failure short-circuits without invoking the underlying operation and
leaves the state unchanged; a call after the window has elapsed is NOT
short-circuited, and it resets the failure counter (to 0 on success, to 1
on failure), so the breaker closes fully instead of entering a one-trial
half-open state, and the immediately following call is also let through. -/
theorem C3_breaker_reset (st : BreakerState) (now : Nat) (succeeds : Bool)
    (h5 : 5 ≤ st.failures) :
    (now - st.last_failure_time < 300 →
      circuit_breaker 5 300 st now succeeds = (CallResult.shortCircuit, st)) ∧
    (¬ now - st.last_failure_time < 300 →
      (circuit_breaker 5 300 st now succeeds).1 ≠ CallResult.shortCircuit ∧
      (circuit_breaker 5 300 st now succeeds).2.failures =
        (if succeeds then 0 else 1) ∧
      ∀ now2 succeeds2,
        (circuit_breaker 5 300 (circuit_breaker 5 300 st now succeeds).2
          now2 succeeds2).1 ≠ CallResult.shortCircuit) := by
  constructor
  · intro hwin
    simp [circuit_breaker, h5, hwin]
  · intro hwin
    have hcond : ¬ (5 ≤ st.failures ∧ now - st.last_failure_time < 300) :=
      fun hx => hwin hx.2
    refine ⟨?_, ?_, ?_⟩
    · cases succeeds <;> simp [circuit_breaker, hcond, h5, hwin]
    · cases succeeds <;> simp [circuit_breaker, hcond, h5, hwin]
    · intro now2 succeeds2
      set st2 := (circuit_breaker 5 300 st now succeeds).2 with hst2def
      have hst2 : st2.failures = (if succeeds then 0 else 1) := by
        rw [hst2def]
        cases succeeds <;> simp [circuit_breaker, hcond, h5, hwin]
      have hlt : st2.failures < 5 := by
        rw [hst2]; cases succeeds <;> simp
      have hcond2 : ¬ (5 ≤ st2.failures ∧
          now2 - st2.last_failure_time < 300) :=
        fun hx => absurd hx.1 (Nat.not_le_of_lt hlt)
      cases succeeds2 <;> simp [circuit_breaker, hcond2]

/-- Witness for C3_breaker_reset at a concrete input: failure count 5,
last failure at time 4, call at time 400 (window elapsed) failing. -/
theorem C3_breaker_reset_witness :
    5 ≤ (BreakerState.mk 5 4).failures ∧
    ((400 - (BreakerState.mk 5 4).last_failure_time < 300 →
      circuit_breaker 5 300 ⟨5, 4⟩ 400 false = (CallResult.shortCircuit, ⟨5, 4⟩)) ∧
    (¬ 400 - (BreakerState.mk 5 4).last_failure_time < 300 →
      (circuit_breaker 5 300 ⟨5, 4⟩ 400 false).1 ≠ CallResult.shortCircuit ∧
      (circuit_breaker 5 300 ⟨5, 4⟩ 400 false).2.failures =
        (if false then 0 else 1) ∧
      ∀ now2 succeeds2,
        (circuit_breaker 5 300 (circuit_breaker 5 300 ⟨5, 4⟩ 400 false).2
          now2 succeeds2).1 ≠ CallResult.shortCircuit)) :=
  ⟨by decide, C3_breaker_reset ⟨5, 4⟩ 400 false (by decide)⟩

/-! ## Persisted session state (session.py, SessionManager) -/

/-- One entry of the active_folders map kept by a UserSession
(user_session.py: channel id and folder title). -/
structure ActiveFolder where
  channel_id : Int
  title : String
  deriving DecidableEq, Repr

/-- One entry of the persisted folder_channels map
(handlers.py, get_or_create_channel saves channel_id, title, created_at). -/
structure ChannelData where
  channel_id : Int
  title : String
  created_at : Nat
  deriving DecidableEq, Repr

/-- The decrypted dictionary persisted per user: session string plus the
active_folders and folder_channels maps, keyed by folder id strings. -/
structure SessionData where
  session_string : Option String
  active_folders : List (String × ActiveFolder)
  folder_channels : List (String × ChannelData)
  deriving DecidableEq, Repr

/-- The dictionary returned by SessionManager.load_session when the file
is absent or unreadable: empty active_folders and folder_channels and no
session string. -/
def default_session_data : SessionData := ⟨none, [], []⟩

/-- What reading the session file of a user can yield: the file does not
exist, reading raises, or it yields raw bytes. -/
inductive FileRead where
  | missing
  | read_error
  | content (bytes : List Nat)
  deriving DecidableEq, Repr

/-- SessionManager.load_session.  The decrypt argument stands for
_decrypt_data (Fernet decryption plus JSON decoding), which can fail on
garbage input; the surrounding try/except turns every failure into the
default dictionary, and a missing file returns the default directly. -/
def load_session (fs : FileRead)
    (decrypt : List Nat → Except String SessionData) : SessionData :=
  match fs with
  | FileRead.missing => default_session_data
  | FileRead.read_error => default_session_data
  | FileRead.content b =>
    match decrypt b with
    | Except.ok d => d
    | Except.error _ => default_session_data

/-- C10: loading persisted session state is total and never propagates an
error: a missing file, a failing read, or a failing decrypt all yield the
default state, whose active-folder and folder-channel maps are empty; the
only other possibility is a successful decrypt, whose value is returned. -/
theorem C10_load_session_total (fs : FileRead)
    (decrypt : List Nat → Except String SessionData) :
    (fs = FileRead.missing → load_session fs decrypt = default_session_data) ∧
    (fs = FileRead.read_error → load_session fs decrypt = default_session_data) ∧
    (∀ b e, fs = FileRead.content b → decrypt b = Except.error e →
      load_session fs decrypt = default_session_data) ∧
    (∀ b d, fs = FileRead.content b → decrypt b = Except.ok d →
      load_session fs decrypt = d) ∧
    default_session_data.active_folders = [] ∧
    default_session_data.folder_channels = [] := by
  refine ⟨?_, ?_, ?_, ?_, rfl, rfl⟩
  · intro h; rw [h]; rfl
  · intro h; rw [h]; rfl
  · intro b e hf hd; rw [hf]; simp [load_session, hd]
  · intro b d hf hd; rw [hf]; simp [load_session, hd]

/-- Witness for C10_load_session_total: a file whose decryption fails
still loads as the default state. -/
theorem C10_load_session_total_witness :
    FileRead.content [7] = FileRead.content [7] ∧
    (fun _ : List Nat => (Except.error "bad token" : Except String SessionData)) [7]
      = Except.error "bad token" ∧
    load_session (FileRead.content [7])
      (fun _ => Except.error "bad token") = default_session_data :=
  ⟨rfl, rfl,
    (C10_load_session_total (FileRead.content [7])
      (fun _ => Except.error "bad token")).2.2.1 [7] "bad token" rfl rfl⟩

/-! ## Per-destination queue manager (queue_manager.py, MessageQueue) -/

/-- Status of an asyncio task backing one queue worker.  cancel() only
requests cancellation; the task completes when the event loop next runs it
(modelled by settle_task below) or when it is awaited. -/
inductive TaskStatus where
  | running
  | cancelRequested
  | completed
  deriving DecidableEq, Repr

/-- One worker task ever created by start_processing: its identity, the
channel it serves, and its current status. -/
structure WorkerTask where
  tid : Nat
  channel : Int
  status : TaskStatus
  deriving DecidableEq, Repr

/-- State of a MessageQueue instance.  queues, tasks and stop_events are
the three dictionaries of the Python class (tasks maps a channel to the
identifier of its worker task).  all_tasks records every task ever
created together with its current status, and next_tid supplies fresh
task identifiers; both are bookkeeping for the task objects that Python
keeps implicitly in the event loop. -/
structure MessageQueue where
  queues : List (Int × List Message)
  tasks : List (Int × Nat)
  stop_events : List (Int × Bool)
  all_tasks : List WorkerTask
  next_tid : Nat
  deriving DecidableEq, Repr

/-- The freshly constructed MessageQueue() of handlers.py. -/
def init_queue : MessageQueue := ⟨[], [], [], [], 0⟩

/-- Status of the task object with the given identifier; a task that was
never created counts as done. -/
def task_status (s : MessageQueue) (tid : Nat) : TaskStatus :=
  match s.all_tasks.find? (fun t => decide (t.tid = tid)) with
  | some t => t.status
  | none => TaskStatus.completed

/-- MessageQueue.get_queue: create the queue and its stop event on first
use of a channel. -/
def get_queue (s : MessageQueue) (channel_id : Int) : MessageQueue :=
  if (alookup channel_id s.queues).isSome then s
  else { s with queues := ainsert channel_id [] s.queues,
                stop_events := ainsert channel_id false s.stop_events }

/-- Result reported by MessageQueue.add_message: the message entered the
queue, or the put timed out and the message was dropped with a
queue-full warning.  No exception escapes either way. -/
inductive AddResult where
  | added
  | dropped
  deriving DecidableEq, Repr

/-- MessageQueue.add_message: awaits queue.put under a QUEUE_TIMEOUT
bound.  Without a concurrent consumer freeing a slot, the put completes
immediately when the queue is below capacity and times out after exactly
QUEUE_TIMEOUT seconds otherwise; the TimeoutError is caught, the message
dropped, and nothing is raised or retried.  The third component is the
number of seconds the caller was blocked. -/
def add_message (s : MessageQueue) (channel_id : Int) (m : Message) :
    AddResult × MessageQueue × Nat :=
  let s1 := get_queue s channel_id
  let q := (alookup channel_id s1.queues).getD []
  if q.length < QUEUE_MAX_SIZE then
    (AddResult.added,
     { s1 with queues := ainsert channel_id (q ++ [m]) s1.queues }, 0)
  else
    (AddResult.dropped, s1, QUEUE_TIMEOUT)

/-- Replace the status of the task with the given identifier. -/
def set_task_status (s : MessageQueue) (tid : Nat) (st : TaskStatus) :
    MessageQueue :=
  { s with all_tasks := s.all_tasks.map fun t =>
      if t.tid = tid then ⟨t.tid, t.channel, st⟩ else t }

/-- task.cancel(): requests cancellation of a task that is not yet done;
a no-op on a completed task. -/
def cancel_task (s : MessageQueue) (tid : Nat) : MessageQueue :=
  if task_status s tid = TaskStatus.completed then s
  else set_task_status s tid TaskStatus.cancelRequested

/-- MessageQueue.start_processing: a no-op when the channel already has a
worker task that is not done, otherwise creates a fresh worker task for
the channel. -/
def start_processing (s : MessageQueue) (channel_id : Int) : MessageQueue :=
  match alookup channel_id s.tasks with
  | some tid =>
    if task_status s tid ≠ TaskStatus.completed then s
    else
      { s with tasks := ainsert channel_id s.next_tid s.tasks,
               all_tasks := s.all_tasks ++ [⟨s.next_tid, channel_id, TaskStatus.running⟩],
               next_tid := s.next_tid + 1 }
  | none =>
    { s with tasks := ainsert channel_id s.next_tid s.tasks,
             all_tasks := s.all_tasks ++ [⟨s.next_tid, channel_id, TaskStatus.running⟩],
             next_tid := s.next_tid + 1 }

/-- MessageQueue.stop_processing: sets the stop event when the channel
has one, cancels the worker task and deletes it from tasks when the
channel has one, and deletes the queue when the channel has one.  The
three delete-if-present steps are written with aerase, which is a no-op
on an absent key, so each field update matches the guarded Python
statement. -/
def stop_processing (s : MessageQueue) (channel_id : Int) : MessageQueue :=
  { queues := aerase channel_id s.queues,
    tasks := aerase channel_id s.tasks,
    stop_events := if (alookup channel_id s.stop_events).isSome
                   then ainsert channel_id true s.stop_events
                   else s.stop_events,
    all_tasks := match alookup channel_id s.tasks with
                 | some tid => (cancel_task s tid).all_tasks
                 | none => s.all_tasks,
    next_tid := s.next_tid }

/-- The event loop runs a cancel-requested task, which raises
CancelledError inside it and completes it. -/
def settle_task (s : MessageQueue) (tid : Nat) : MessageQueue :=
  if task_status s tid = TaskStatus.cancelRequested
  then set_task_status s tid TaskStatus.completed
  else s

/-- MessageQueue.stop_all: stop every channel found in tasks, then gather
the tasks still registered and not done (awaiting them completes them),
then clear the three dictionaries.  The second component is the list of
task identifiers that were actually awaited by the gather. -/
def stop_all (s : MessageQueue) : MessageQueue × List Nat :=
  let s1 := (s.tasks.map Prod.fst).foldl stop_processing s
  let remaining := (s1.tasks.filter
      (fun e => decide (¬ task_status s1 e.2 = TaskStatus.completed))).map Prod.snd
  let s2 := remaining.foldl (fun st tid => set_task_status st tid TaskStatus.completed) s1
  ({ s2 with queues := [], tasks := [], stop_events := [] }, remaining)

/-- C8: add_message blocks its caller for at most QUEUE_TIMEOUT (60)
seconds, appends the message in FIFO position when the queue is below
capacity, and on a full queue reports a dropped message without raising
and without retrying: the queue contents are left unchanged and the
result is dropped exactly when the queue is at capacity. -/
theorem C8_add_message_backpressure (s : MessageQueue) (channel_id : Int)
    (m : Message) :
    (add_message s channel_id m).2.2 ≤ QUEUE_TIMEOUT ∧
    QUEUE_TIMEOUT = 60 ∧
    ((add_message s channel_id m).1 = AddResult.dropped ↔
      QUEUE_MAX_SIZE ≤ ((alookup channel_id (get_queue s channel_id).queues).getD []).length) ∧
    ((add_message s channel_id m).1 = AddResult.dropped →
      (add_message s channel_id m).2.1 = get_queue s channel_id) ∧
    ((add_message s channel_id m).1 = AddResult.added →
      alookup channel_id (add_message s channel_id m).2.1.queues =
        some (((alookup channel_id (get_queue s channel_id).queues).getD []) ++ [m])) := by
  by_cases hlen : ((alookup channel_id (get_queue s channel_id).queues).getD []).length < QUEUE_MAX_SIZE
  · refine ⟨?_, rfl, ?_, ?_, ?_⟩
    · simp [add_message, hlen]
    · simp [add_message, hlen]
    · intro h
      simp [add_message, hlen] at h
    · intro _
      simp [add_message, hlen, alookup_ainsert_self]
  · refine ⟨?_, rfl, ?_, ?_, ?_⟩
    · simp [add_message, hlen]
    · simp [add_message, hlen]
      exact Nat.le_of_not_lt hlen
    · intro _
      simp [add_message, hlen]
    · intro h
      simp [add_message, hlen] at h

theorem stop_processing_tasks (s : MessageQueue) (c : Int) :
    (stop_processing s c).tasks = aerase c s.tasks := rfl

theorem aerase_filter_notin {α β : Type} [DecidableEq α] (k : α) (ks : List α)
    (l : List (α × β)) :
    (aerase k l).filter (fun e => decide (e.1 ∉ ks))
      = l.filter (fun e => decide (e.1 ∉ k :: ks)) := by
  induction l with
  | nil => rfl
  | cons e t ih =>
    by_cases he : e.1 = k
    · have hmm : e.1 ∈ k :: ks := by rw [he]; exact List.mem_cons_self k ks
      simp [aerase, he, List.filter_cons, hmm]
      simpa using ih
    · by_cases hm : e.1 ∈ ks
      · have hmm : e.1 ∈ k :: ks := List.mem_cons_of_mem k hm
        simp [aerase, he, List.filter_cons, hm, hmm]
        simpa using ih
      · have hmm : e.1 ∉ k :: ks := by
          intro hx
          rcases List.mem_cons.mp hx with hx | hx
          · exact he hx
          · exact hm hx
        simp [aerase, he, List.filter_cons, hm, hmm]
        simpa using ih

theorem foldl_stop_tasks (keys : List Int) (s : MessageQueue) :
    (keys.foldl stop_processing s).tasks
      = s.tasks.filter (fun e => decide (e.1 ∉ keys)) := by
  induction keys generalizing s with
  | nil => simp
  | cons k ks ih =>
    rw [List.foldl_cons, ih, stop_processing_tasks]
    exact aerase_filter_notin k ks s.tasks

theorem stop_all_awaits_nothing (s : MessageQueue) : (stop_all s).2 = [] := by
  have h1 := foldl_stop_tasks (s.tasks.map Prod.fst) s
  have h2 : s.tasks.filter (fun e => decide (e.1 ∉ s.tasks.map Prod.fst)) = [] := by
    rw [List.filter_eq_nil_iff]
    intro e he
    simp only [decide_eq_true_eq, Decidable.not_not]
    exact List.mem_map.mpr ⟨e, he, rfl⟩
  simp [stop_all, h1, h2]
  exact fun a b hab _ => ⟨b, hab⟩

/-- C4: the claim that stop_all awaits the termination of every worker
before returning is wrong on the code.  stop_processing deletes each task
from the tasks dictionary right after cancelling it, so by the time
stop_all computes the list of remaining tasks to gather, that list is
always empty: nothing is ever awaited.  Concretely, starting a worker for
channel 1 and calling stop_all leaves worker task 0 merely
cancel-requested, not completed, when stop_all returns; the comment
inside stop_all (wait for all tasks to complete) documents the opposite
intent, so this is a slip in the code. -/
theorem C4_stop_all_never_awaits :
    (∀ s : MessageQueue, (stop_all s).2 = []) ∧
    (stop_all (start_processing init_queue 1)).2 = [] ∧
    task_status (stop_all (start_processing init_queue 1)).1 0 =
      TaskStatus.cancelRequested ∧
    TaskStatus.cancelRequested ≠ TaskStatus.completed :=
  ⟨stop_all_awaits_nothing, stop_all_awaits_nothing _, by decide, by decide⟩

/-! ## At most one live worker per channel (invariant machinery) -/

theorem find_task_unique (l : List WorkerTask)
    (hnd : (l.map WorkerTask.tid).Nodup) (t : WorkerTask) (ht : t ∈ l) :
    l.find? (fun u => decide (u.tid = t.tid)) = some t := by
  induction l with
  | nil => cases ht
  | cons h tl ih =>
    rw [List.map_cons, List.nodup_cons] at hnd
    by_cases he : h.tid = t.tid
    · have hteq : t = h := by
        rcases List.mem_cons.mp ht with hx | hx
        · exact hx
        · exact absurd (he ▸ List.mem_map.mpr ⟨t, hx, rfl⟩) hnd.1
      rw [List.find?_cons_of_pos _ (by simp [he])]
      rw [hteq]
    · have htl : t ∈ tl := by
        rcases List.mem_cons.mp ht with hx | hx
        · exact absurd (congrArg WorkerTask.tid hx).symm he
        · exact hx
      rw [List.find?_cons_of_neg _ (by simp [he])]
      exact ih hnd.2 htl

theorem filter_tid_le_one (l : List WorkerTask)
    (hnd : (l.map WorkerTask.tid).Nodup) (p : WorkerTask → Bool) (v : Nat)
    (hp : ∀ t ∈ l, p t = true → t.tid = v) :
    (l.filter p).length ≤ 1 := by
  induction l with
  | nil => simp
  | cons h tl ih =>
    rw [List.map_cons, List.nodup_cons] at hnd
    by_cases hph : p h
    · have htl : tl.filter p = [] := by
        rw [List.filter_eq_nil_iff]
        intro t htmem hpt
        have h1 : t.tid = v := hp t (List.mem_cons_of_mem h htmem) hpt
        have h2 : h.tid = v := hp h (List.mem_cons_self h tl) hph
        exact hnd.1 (h2 ▸ h1 ▸ List.mem_map.mpr ⟨t, htmem, rfl⟩)
      simp [List.filter_cons, hph, htl]
    · simp only [List.filter_cons, hph, if_false]
      exact ih hnd.2 (fun t htmem hpt => hp t (List.mem_cons_of_mem h htmem) hpt)

theorem map_upd_tid (l : List WorkerTask) (tid : Nat) (st : TaskStatus) :
    ((l.map fun t => if t.tid = tid then ⟨t.tid, t.channel, st⟩ else t).map
      WorkerTask.tid) = l.map WorkerTask.tid := by
  induction l with
  | nil => rfl
  | cons h tl ih =>
    by_cases he : h.tid = tid <;> simp [he, ih]

/-- The invariant that makes the one-live-worker property inductive: a
running task is always registered in tasks under its channel, every task
identifier is below the fresh counter, and task identifiers are unique. -/
def QInv (s : MessageQueue) : Prop :=
  (∀ t ∈ s.all_tasks, t.status = TaskStatus.running →
    alookup t.channel s.tasks = some t.tid) ∧
  (∀ t ∈ s.all_tasks, t.tid < s.next_tid) ∧
  (s.all_tasks.map WorkerTask.tid).Nodup

theorem QInv_congr (s s' : MessageQueue) (ht : s'.tasks = s.tasks)
    (ha : s'.all_tasks = s.all_tasks) (hn : s'.next_tid = s.next_tid)
    (hinv : QInv s) : QInv s' := by
  unfold QInv at hinv ⊢
  rw [ht, ha, hn]
  exact hinv

theorem QInv_set_nonrunning (s : MessageQueue) (tid : Nat) (st : TaskStatus)
    (hst : st ≠ TaskStatus.running) (hinv : QInv s) :
    QInv (set_task_status s tid st) := by
  obtain ⟨h1, h2, h3⟩ := hinv
  refine ⟨?_, ?_, ?_⟩
  · intro t' ht' hrun
    obtain ⟨t, htmem, hupd⟩ := List.mem_map.mp ht'
    by_cases he : t.tid = tid
    · rw [if_pos he] at hupd
      rw [← hupd] at hrun
      exact absurd hrun hst
    · rw [if_neg he] at hupd
      rw [← hupd] at hrun ⊢
      exact h1 t htmem hrun
  · intro t' ht'
    obtain ⟨t, htmem, hupd⟩ := List.mem_map.mp ht'
    have : t'.tid = t.tid := by
      by_cases he : t.tid = tid
      · rw [if_pos he] at hupd; rw [← hupd]
      · rw [if_neg he] at hupd; rw [← hupd]
    rw [this]
    exact h2 t htmem
  · rw [set_task_status, map_upd_tid]
    exact h3

theorem QInv_start_new (s : MessageQueue) (c : Int) (hinv : QInv s)
    (hno : ∀ t ∈ s.all_tasks, t.channel = c → t.status ≠ TaskStatus.running) :
    QInv { s with tasks := ainsert c s.next_tid s.tasks,
                  all_tasks := s.all_tasks ++ [⟨s.next_tid, c, TaskStatus.running⟩],
                  next_tid := s.next_tid + 1 } := by
  obtain ⟨h1, h2, h3⟩ := hinv
  refine ⟨?_, ?_, ?_⟩
  · intro t ht hrun
    rcases List.mem_append.mp ht with hmem | hmem
    · have hch : t.channel ≠ c := fun hc => hno t hmem hc hrun
      show alookup t.channel (ainsert c s.next_tid s.tasks) = some t.tid
      rw [alookup_ainsert_ne _ _ hch]
      exact h1 t hmem hrun
    · have ht' : t = ⟨s.next_tid, c, TaskStatus.running⟩ := by simpa using hmem
      rw [ht']
      exact alookup_ainsert_self c s.next_tid s.tasks
  · intro t ht
    rcases List.mem_append.mp ht with hmem | hmem
    · exact Nat.lt_succ_of_lt (h2 t hmem)
    · have ht' : t = ⟨s.next_tid, c, TaskStatus.running⟩ := by simpa using hmem
      rw [ht']
      exact Nat.lt_succ_self _
  · show ((s.all_tasks ++ [WorkerTask.mk s.next_tid c TaskStatus.running]).map WorkerTask.tid).Nodup
    rw [List.map_append, List.nodup_append]
    refine ⟨h3, List.nodup_singleton _, ?_⟩
    intro x hx hx'
    obtain ⟨t, htmem, htid⟩ := List.mem_map.mp hx
    have hxeq : x = s.next_tid := by simpa using hx'
    have := h2 t htmem
    rw [htid, hxeq] at this
    exact absurd this (Nat.lt_irrefl _)

theorem start_processing_none (s : MessageQueue) (c : Int)
    (h : alookup c s.tasks = none) :
    start_processing s c =
      { s with tasks := ainsert c s.next_tid s.tasks,
               all_tasks := s.all_tasks ++ [⟨s.next_tid, c, TaskStatus.running⟩],
               next_tid := s.next_tid + 1 } := by
  unfold start_processing
  rw [h]

theorem start_processing_some (s : MessageQueue) (c : Int) (tid : Nat)
    (h : alookup c s.tasks = some tid) :
    start_processing s c =
      if task_status s tid ≠ TaskStatus.completed then s
      else { s with tasks := ainsert c s.next_tid s.tasks,
                    all_tasks := s.all_tasks ++ [⟨s.next_tid, c, TaskStatus.running⟩],
                    next_tid := s.next_tid + 1 } := by
  unfold start_processing
  rw [h]

theorem QInv_start (s : MessageQueue) (c : Int) (hinv : QInv s) :
    QInv (start_processing s c) := by
  have h1 := hinv.1
  have h3 := hinv.2.2
  cases htask : alookup c s.tasks with
  | none =>
    rw [start_processing_none s c htask]
    apply QInv_start_new s c hinv
    intro t ht hc hrun
    have hl := h1 t ht hrun
    rw [hc, htask] at hl
    cases hl
  | some tid =>
    rw [start_processing_some s c tid htask]
    by_cases hdone : task_status s tid ≠ TaskStatus.completed
    · rw [if_pos hdone]
      exact hinv
    · rw [if_neg hdone]
      push_neg at hdone
      apply QInv_start_new s c hinv
      intro t ht hc hrun
      have hl := h1 t ht hrun
      rw [hc, htask] at hl
      have htid : tid = t.tid := Option.some.inj hl
      have hfind := find_task_unique s.all_tasks h3 t ht
      have hstat : task_status s tid = t.status := by
        unfold task_status
        rw [htid, hfind]
      rw [hstat, hrun] at hdone
      cases hdone

theorem QInv_stop (s : MessageQueue) (c : Int) (hinv : QInv s) :
    QInv (stop_processing s c) := by
  obtain ⟨h1, h2, h3⟩ := hinv
  unfold stop_processing
  cases htask : alookup c s.tasks with
  | none =>
    refine ⟨?_, h2, h3⟩
    intro t ht hrun
    have hch : t.channel ≠ c := by
      intro hc
      have hl := h1 t ht hrun
      rw [hc, htask] at hl
      cases hl
    show alookup t.channel (aerase c s.tasks) = some t.tid
    rw [alookup_aerase_ne _ hch]
    exact h1 t ht hrun
  | some tid =>
    by_cases hdone : task_status s tid = TaskStatus.completed
    · have hall : (cancel_task s tid).all_tasks = s.all_tasks := by
        unfold cancel_task
        rw [if_pos hdone]
      refine ⟨?_, ?_, ?_⟩
      · show ∀ t ∈ (cancel_task s tid).all_tasks, _
        rw [hall]
        intro t ht hrun
        have hch : t.channel ≠ c := by
          intro hc
          have hl := h1 t ht hrun
          rw [hc, htask] at hl
          have htid : tid = t.tid := Option.some.inj hl
          have hfind := find_task_unique s.all_tasks h3 t ht
          have hstat : task_status s tid = t.status := by
            unfold task_status
            rw [htid, hfind]
          rw [hstat, hrun] at hdone
          cases hdone
        show alookup t.channel (aerase c s.tasks) = some t.tid
        rw [alookup_aerase_ne _ hch]
        exact h1 t ht hrun
      · show ∀ t ∈ (cancel_task s tid).all_tasks, _
        rw [hall]
        exact h2
      · show (((cancel_task s tid).all_tasks).map WorkerTask.tid).Nodup
        rw [hall]
        exact h3
    · have hall : (cancel_task s tid).all_tasks =
          s.all_tasks.map fun t =>
            if t.tid = tid then ⟨t.tid, t.channel, TaskStatus.cancelRequested⟩ else t := by
        unfold cancel_task
        rw [if_neg hdone]
        rfl
      refine ⟨?_, ?_, ?_⟩
      · show ∀ t ∈ (cancel_task s tid).all_tasks, _
        rw [hall]
        intro t' ht' hrun
        obtain ⟨t, htmem, hupd⟩ := List.mem_map.mp ht'
        by_cases he : t.tid = tid
        · rw [if_pos he] at hupd
          rw [← hupd] at hrun
          cases hrun
        · rw [if_neg he] at hupd
          rw [← hupd] at hrun ⊢
          have hch : t.channel ≠ c := by
            intro hc
            have hl := h1 t htmem hrun
            rw [hc, htask] at hl
            exact he (Option.some.inj hl).symm
          show alookup t.channel (aerase c s.tasks) = some t.tid
          rw [alookup_aerase_ne _ hch]
          exact h1 t htmem hrun
      · show ∀ t ∈ (cancel_task s tid).all_tasks, _
        rw [hall]
        intro t' ht'
        obtain ⟨t, htmem, hupd⟩ := List.mem_map.mp ht'
        have : t'.tid = t.tid := by
          by_cases he : t.tid = tid
          · rw [if_pos he] at hupd; rw [← hupd]
          · rw [if_neg he] at hupd; rw [← hupd]
        rw [this]
        exact h2 t htmem
      · show (((cancel_task s tid).all_tasks).map WorkerTask.tid).Nodup
        rw [hall, map_upd_tid]
        exact h3

theorem QInv_settle (s : MessageQueue) (tid : Nat) (hinv : QInv s) :
    QInv (settle_task s tid) := by
  unfold settle_task
  by_cases hc : task_status s tid = TaskStatus.cancelRequested
  · rw [if_pos hc]
    exact QInv_set_nonrunning s tid _ (by decide) hinv
  · rw [if_neg hc]
    exact hinv

theorem add_message_frame (s : MessageQueue) (c : Int) (m : Message) :
    (add_message s c m).2.1.tasks = s.tasks ∧
    (add_message s c m).2.1.all_tasks = s.all_tasks ∧
    (add_message s c m).2.1.next_tid = s.next_tid := by
  unfold add_message get_queue
  by_cases hq : (alookup c s.queues).isSome
  · simp only [hq, if_true]
    split <;> exact ⟨rfl, rfl, rfl⟩
  · simp only [hq, Bool.false_eq_true, if_false]
    split <;> exact ⟨rfl, rfl, rfl⟩

theorem QInv_foldl_stop (keys : List Int) (s : MessageQueue) (hinv : QInv s) :
    QInv (keys.foldl stop_processing s) := by
  induction keys generalizing s with
  | nil => exact hinv
  | cons k ks ih => exact ih _ (QInv_stop s k hinv)

theorem QInv_foldl_complete (ids : List Nat) (s : MessageQueue) (hinv : QInv s) :
    QInv (ids.foldl (fun st tid => set_task_status st tid TaskStatus.completed) s) := by
  induction ids generalizing s with
  | nil => exact hinv
  | cons i is ih => exact ih _ (QInv_set_nonrunning s i _ (by decide) hinv)

theorem no_running_of_tasks_nil (s : MessageQueue) (hinv : QInv s)
    (h : s.tasks = []) : ∀ t ∈ s.all_tasks, t.status ≠ TaskStatus.running := by
  intro t ht hrun
  have hl := hinv.1 t ht hrun
  rw [h] at hl
  simp [alookup] at hl

theorem no_running_set_step (s : MessageQueue) (tid : Nat)
    (h : ∀ t ∈ s.all_tasks, t.status ≠ TaskStatus.running) :
    ∀ t ∈ (set_task_status s tid TaskStatus.completed).all_tasks,
      t.status ≠ TaskStatus.running := by
  intro t' ht' hrun
  obtain ⟨t, htmem, hupd⟩ := List.mem_map.mp ht'
  by_cases he : t.tid = tid
  · rw [if_pos he] at hupd
    rw [← hupd] at hrun
    cases hrun
  · rw [if_neg he] at hupd
    rw [← hupd] at hrun
    exact h t htmem hrun

theorem no_running_foldl_complete (ids : List Nat) (s : MessageQueue)
    (h : ∀ t ∈ s.all_tasks, t.status ≠ TaskStatus.running) :
    ∀ t ∈ (ids.foldl (fun st tid =>
        set_task_status st tid TaskStatus.completed) s).all_tasks,
      t.status ≠ TaskStatus.running := by
  induction ids generalizing s with
  | nil => exact h
  | cons i is ih => exact ih _ (no_running_set_step s i h)

theorem foldl_stop_self_tasks_nil (s : MessageQueue) :
    ((s.tasks.map Prod.fst).foldl stop_processing s).tasks = [] := by
  rw [foldl_stop_tasks, List.filter_eq_nil_iff]
  intro e he
  simp only [decide_eq_true_eq, Decidable.not_not]
  exact List.mem_map.mpr ⟨e, he, rfl⟩

theorem QInv_stop_all (s : MessageQueue) (hinv : QInv s) :
    QInv (stop_all s).1 := by
  have hinv1 : QInv ((s.tasks.map Prod.fst).foldl stop_processing s) :=
    QInv_foldl_stop _ s hinv
  have hnil := foldl_stop_self_tasks_nil s
  have hnorun1 := no_running_of_tasks_nil _ hinv1 hnil
  refine ⟨?_, ?_, ?_⟩
  · intro t ht hrun
    exact absurd hrun (no_running_foldl_complete _ _ hnorun1 t ht)
  · intro t ht
    exact (QInv_foldl_complete _ _ hinv1).2.1 t ht
  · exact (QInv_foldl_complete _ _ hinv1).2.2

/-- The operations the bot layer can perform on a MessageQueue, plus the
event-loop step that completes a cancel-requested task. -/
inductive QOp where
  | start (channel_id : Int)
  | stop (channel_id : Int)
  | stopAll
  | settle (tid : Nat)
  | add (channel_id : Int) (m : Message)
  deriving DecidableEq, Repr

def run_op (s : MessageQueue) (op : QOp) : MessageQueue :=
  match op with
  | QOp.start c => start_processing s c
  | QOp.stop c => stop_processing s c
  | QOp.stopAll => (stop_all s).1
  | QOp.settle tid => settle_task s tid
  | QOp.add c m => (add_message s c m).2.1

/-- Run a sequence of queue-manager operations from the initial state. -/
def run_ops (ops : List QOp) : MessageQueue :=
  ops.foldl run_op init_queue

/-- Number of worker tasks for the given channel that are running and
have not been cancel-requested or completed. -/
def live_workers (s : MessageQueue) (channel_id : Int) : Nat :=
  (s.all_tasks.filter fun t =>
    decide (t.channel = channel_id ∧ t.status = TaskStatus.running)).length

theorem QInv_add (s : MessageQueue) (c : Int) (m : Message) (hinv : QInv s) :
    QInv ((add_message s c m).2.1) := by
  obtain ⟨hT, hA, hN⟩ := add_message_frame s c m
  exact QInv_congr s _ hT hA hN hinv

theorem QInv_run_op (s : MessageQueue) (op : QOp) (hinv : QInv s) :
    QInv (run_op s op) := by
  cases op with
  | start c => exact QInv_start s c hinv
  | stop c => exact QInv_stop s c hinv
  | stopAll => exact QInv_stop_all s hinv
  | settle tid => exact QInv_settle s tid hinv
  | add c m => exact QInv_add s c m hinv

theorem QInv_init : QInv init_queue := by
  refine ⟨?_, ?_, ?_⟩ <;> simp [init_queue]

theorem QInv_foldl_run (ops : List QOp) (s : MessageQueue) (hinv : QInv s) :
    QInv (ops.foldl run_op s) := by
  induction ops generalizing s with
  | nil => exact hinv
  | cons op rest ih => exact ih _ (QInv_run_op s op hinv)

theorem QInv_run_ops (ops : List QOp) : QInv (run_ops ops) :=
  QInv_foldl_run ops init_queue QInv_init

theorem QInv_live_le_one (s : MessageQueue) (hinv : QInv s) (c : Int) :
    live_workers s c ≤ 1 := by
  obtain ⟨h1, h2, h3⟩ := hinv
  unfold live_workers
  cases hl : alookup c s.tasks with
  | none =>
    have hnil : (s.all_tasks.filter fun t =>
        decide (t.channel = c ∧ t.status = TaskStatus.running)) = [] := by
      rw [List.filter_eq_nil_iff]
      intro t ht hp
      simp only [decide_eq_true_eq] at hp
      have hll := h1 t ht hp.2
      rw [hp.1, hl] at hll
      cases hll
    rw [hnil]
    simp
  | some v =>
    apply filter_tid_le_one _ h3 _ v
    intro t ht hp
    simp only [decide_eq_true_eq] at hp
    have hll := h1 t ht hp.2
    rw [hp.1, hl] at hll
    exact (Option.some.inj hll).symm

/-- C7: for every sequence of queue-manager operations (as issued by
folder activation and deactivation) the state reached from the initial
MessageQueue has at most one live worker per destination channel;
moreover start_processing on a channel whose registered worker is not
done leaves the state entirely unchanged, and stop_processing removes
the channel from the task registry. -/
theorem C7_at_most_one_live_worker (ops : List QOp) (c : Int)
    (s : MessageQueue) (tid : Nat)
    (hlook : alookup c s.tasks = some tid)
    (hlive : task_status s tid ≠ TaskStatus.completed) :
    live_workers (run_ops ops) c ≤ 1 ∧
    start_processing s c = s ∧
    alookup c (stop_processing s c).tasks = none := by
  refine ⟨QInv_live_le_one _ (QInv_run_ops ops) c, ?_, ?_⟩
  · rw [start_processing_some s c tid hlook, if_pos hlive]
  · rw [stop_processing_tasks]
    exact alookup_aerase_self c s.tasks

/-- Witness for C7_at_most_one_live_worker: the state that has just
started a worker for channel 7. -/
theorem C7_at_most_one_live_worker_witness :
    alookup 7 (start_processing init_queue 7).tasks = some 0 ∧
    task_status (start_processing init_queue 7) 0 ≠ TaskStatus.completed ∧
    (live_workers (run_ops [QOp.start 7]) 7 ≤ 1 ∧
     start_processing (start_processing init_queue 7) 7 =
       start_processing init_queue 7 ∧
     alookup 7 (stop_processing (start_processing init_queue 7) 7).tasks = none) :=
  ⟨by decide, by decide,
    C7_at_most_one_live_worker [QOp.start 7] 7 (start_processing init_queue 7) 0
      (by decide) (by decide)⟩

/-! ## Folder-channel binding (handlers.py, get_or_create_channel) -/

/-- What get_or_create_channel reads from a dialog yielded by
iter_dialogs: its id, whether it is a channel, and whether the session
still has admin rights on it (channel.admin_rights truthiness). -/
structure Dialog where
  id : Int
  is_channel : Bool
  admin_rights : Bool
  deriving DecidableEq, Repr

/-- Outcome of one CreateChannelRequest call: a created channel, a
FloodWaitError carrying the server-specified wait, an empty or invalid
response, or any other exception (absorbed by the outer try/except). -/
inductive CreateResult where
  | created (channel_id : Int)
  | flood_wait (seconds : Nat)
  | empty_response
  | create_error
  deriving DecidableEq, Repr

/-- Result of get_or_create_channel: the channel id returned (none on
failure), the persisted folder_channels store after all save_session
calls, how many CreateChannelRequest calls were attempted, the sleeps
performed for flood waits, and how many times the lookup phase ran. -/
structure GocResult where
  channel : Option Int
  store : List (String × ChannelData)
  create_attempts : Nat
  sleeps : List Nat
  lookup_runs : Nat
  deriving DecidableEq, Repr

/-- The dialog scan of get_or_create_channel: first dialog that is a
channel with the bound id. -/
def resolve_channel (dialogs : List Dialog) (channel_id : Int) : Option Dialog :=
  dialogs.find? fun d => d.is_channel && decide (d.id = channel_id)

/-- The lookup phase of get_or_create_channel: if the folder has a
persisted binding, resolve it through the dialogs; reuse it when admin
rights remain, otherwise delete the stale binding (and save) and report
nothing found.  The exception path around the dialog iteration is not
modelled: the dialog list is a pure value here. -/
def lookup_existing (store : List (String × ChannelData)) (dialogs : List Dialog)
    (folder_id_str : String) : List (String × ChannelData) × Option Int :=
  match alookup folder_id_str store with
  | some cd =>
    match resolve_channel dialogs cd.channel_id with
    | some d =>
      if d.admin_rights then (store, some d.id)
      else (aerase folder_id_str store, none)
    | none => (aerase folder_id_str store, none)
  | none => (store, none)

/-- handlers.py get_or_create_channel.  The outcomes list supplies the
result of each successive CreateChannelRequest call (an empty list means
the call is never reached or, if reached, behaves as an error).  On
flood_wait the code sleeps the server-specified seconds and re-invokes
the whole function recursively; the recursion reloads the persisted
store, which is threaded through here. -/
def get_or_create_channel (dialogs : List Dialog)
    (folder_id_str folder_title : String) (now : Nat) :
    List CreateResult → List (String × ChannelData) → GocResult
  | outcomes, store =>
    let lk := lookup_existing store dialogs folder_id_str
    match lk.2 with
    | some ch => ⟨some ch, lk.1, 0, [], 1⟩
    | none =>
      match outcomes with
      | [] => ⟨none, lk.1, 0, [], 1⟩
      | CreateResult.created ch :: _ =>
        ⟨some ch, ainsert folder_id_str ⟨ch, folder_title, now⟩ lk.1, 1, [], 1⟩
      | CreateResult.empty_response :: _ => ⟨none, lk.1, 1, [], 1⟩
      | CreateResult.create_error :: _ => ⟨none, lk.1, 1, [], 1⟩
      | CreateResult.flood_wait secs :: rest =>
        let r := get_or_create_channel dialogs folder_id_str folder_title now rest lk.1
        ⟨r.channel, r.store, r.create_attempts + 1, secs :: r.sleeps, r.lookup_runs + 1⟩

/-- C5 counterexample: with no persisted binding and a remote that
answers two successive flood waits (30s, 40s) and then succeeds, the
creation call is attempted three times, i.e. retried twice, and the whole
procedure including the lookup phase runs three times; this refutes both
the single-retry bound and the retry-only-the-creation-step wording of
the claim. -/
theorem C5_counterexample :
    (get_or_create_channel [] "5" "Title" 1000
      [CreateResult.flood_wait 30, CreateResult.flood_wait 40,
       CreateResult.created 99] []).create_attempts = 3 ∧
    (get_or_create_channel [] "5" "Title" 1000
      [CreateResult.flood_wait 30, CreateResult.flood_wait 40,
       CreateResult.created 99] []).sleeps = [30, 40] ∧
    (get_or_create_channel [] "5" "Title" 1000
      [CreateResult.flood_wait 30, CreateResult.flood_wait 40,
       CreateResult.created 99] []).lookup_runs = 3 ∧
    (get_or_create_channel [] "5" "Title" 1000
      [CreateResult.flood_wait 30, CreateResult.flood_wait 40,
       CreateResult.created 99] []).channel = some 99 := by
  refine ⟨rfl, rfl, rfl, rfl⟩

/-- C5 amended: on every flood-wait answer the code sleeps the
server-specified duration and then retries by re-invoking the whole
get_or_create_channel procedure (re-running the lookup phase on the
reloaded store), with no bound on the number of retries: k flood waits
followed by a success yield k + 1 creation attempts, the k specified
sleeps, k + 1 lookup runs, and finally the created channel is persisted
for the folder. -/
theorem C5_flood_retries (dialogs : List Dialog) (fid ftitle : String)
    (now : Nat) (store : List (String × ChannelData)) (floods : List Nat)
    (new_id : Int) (hstore : alookup fid store = none) :
    (get_or_create_channel dialogs fid ftitle now
      (floods.map CreateResult.flood_wait ++ [CreateResult.created new_id])
      store).create_attempts = floods.length + 1 ∧
    (get_or_create_channel dialogs fid ftitle now
      (floods.map CreateResult.flood_wait ++ [CreateResult.created new_id])
      store).sleeps = floods ∧
    (get_or_create_channel dialogs fid ftitle now
      (floods.map CreateResult.flood_wait ++ [CreateResult.created new_id])
      store).lookup_runs = floods.length + 1 ∧
    (get_or_create_channel dialogs fid ftitle now
      (floods.map CreateResult.flood_wait ++ [CreateResult.created new_id])
      store).channel = some new_id ∧
    alookup fid (get_or_create_channel dialogs fid ftitle now
      (floods.map CreateResult.flood_wait ++ [CreateResult.created new_id])
      store).store = some ⟨new_id, ftitle, now⟩ := by
  induction floods with
  | nil =>
    simp [get_or_create_channel, lookup_existing, hstore, alookup_ainsert_self]
  | cons f fs ih =>
    obtain ⟨i1, i2, i3, i4, i5⟩ := ih
    simp [get_or_create_channel, lookup_existing, hstore, i1, i2, i3, i4, i5]

/-- Witness for C5_flood_retries: empty store, one flood wait of 30
seconds, then success creating channel 42. -/
theorem C5_flood_retries_witness :
    alookup "9" ([] : List (String × ChannelData)) = none ∧
    ((get_or_create_channel [] "9" "T" 50
        ([30].map CreateResult.flood_wait ++ [CreateResult.created 42])
        []).create_attempts = [30].length + 1 ∧
     (get_or_create_channel [] "9" "T" 50
        ([30].map CreateResult.flood_wait ++ [CreateResult.created 42])
        []).sleeps = [30] ∧
     (get_or_create_channel [] "9" "T" 50
        ([30].map CreateResult.flood_wait ++ [CreateResult.created 42])
        []).lookup_runs = [30].length + 1 ∧
     (get_or_create_channel [] "9" "T" 50
        ([30].map CreateResult.flood_wait ++ [CreateResult.created 42])
        []).channel = some 42 ∧
     alookup "9" (get_or_create_channel [] "9" "T" 50
        ([30].map CreateResult.flood_wait ++ [CreateResult.created 42])
        []).store = some ⟨42, "T", 50⟩) :=
  ⟨rfl, C5_flood_retries [] "9" "T" 50 [] [30] 42 rfl⟩

/-- C6: for a folder with a persisted binding whose channel is missing
from the dialogs or has lost admin rights, activation deletes the stale
mapping, creates a new channel (one creation attempt), returns the new
channel instead of the unusable one, and persists the updated
folder-to-channel mapping. -/
theorem C6_rebind_on_stale (store : List (String × ChannelData))
    (dialogs : List Dialog) (fid ftitle : String) (now : Nat)
    (new_id : Int) (old : ChannelData)
    (hbind : alookup fid store = some old)
    (hbad : resolve_channel dialogs old.channel_id = none ∨
      ∃ d, resolve_channel dialogs old.channel_id = some d ∧
        d.admin_rights = false) :
    (get_or_create_channel dialogs fid ftitle now
      [CreateResult.created new_id] store).channel = some new_id ∧
    alookup fid (get_or_create_channel dialogs fid ftitle now
      [CreateResult.created new_id] store).store = some ⟨new_id, ftitle, now⟩ ∧
    alookup fid (lookup_existing store dialogs fid).1 = none ∧
    (get_or_create_channel dialogs fid ftitle now
      [CreateResult.created new_id] store).create_attempts = 1 := by
  rcases hbad with hres | ⟨d, hres, hadm⟩
  · simp [get_or_create_channel, lookup_existing, hbind, hres,
      alookup_ainsert_self, alookup_aerase_self]
  · simp [get_or_create_channel, lookup_existing, hbind, hres, hadm,
      alookup_ainsert_self, alookup_aerase_self]

/-- Witness for C6_rebind_on_stale: folder 3 bound to channel 10, which
appears in the dialogs without admin rights; channel 77 is created. -/
theorem C6_rebind_on_stale_witness :
    alookup "3" [("3", ChannelData.mk 10 "F" 0)] = some (ChannelData.mk 10 "F" 0) ∧
    (resolve_channel [Dialog.mk 10 true false] (ChannelData.mk 10 "F" 0).channel_id = none ∨
      ∃ d, resolve_channel [Dialog.mk 10 true false] (ChannelData.mk 10 "F" 0).channel_id = some d ∧
        d.admin_rights = false) ∧
    ((get_or_create_channel [Dialog.mk 10 true false] "3" "F" 99
      [CreateResult.created 77] [("3", ChannelData.mk 10 "F" 0)]).channel = some 77 ∧
     alookup "3" (get_or_create_channel [Dialog.mk 10 true false] "3" "F" 99
      [CreateResult.created 77] [("3", ChannelData.mk 10 "F" 0)]).store =
        some (ChannelData.mk 77 "F" 99) ∧
     alookup "3" (lookup_existing [("3", ChannelData.mk 10 "F" 0)]
        [Dialog.mk 10 true false] "3").1 = none ∧
     (get_or_create_channel [Dialog.mk 10 true false] "3" "F" 99
      [CreateResult.created 77] [("3", ChannelData.mk 10 "F" 0)]).create_attempts = 1) :=
  ⟨by decide, Or.inr ⟨Dialog.mk 10 true false, by decide, rfl⟩,
    C6_rebind_on_stale [("3", ChannelData.mk 10 "F" 0)] [Dialog.mk 10 true false]
      "3" "F" 99 77 (ChannelData.mk 10 "F" 0) (by decide)
      (Or.inr ⟨Dialog.mk 10 true false, by decide, rfl⟩)⟩

/-! ## Live forwarding path (handlers.py, setup_message_forwarding) -/

/-- The externally visible steps the registered forward_handler can take,
in order: sleeping, invoking client.forward_messages, bumping the
forwarded-messages metric, re-initialising the client after an entity
error, or enqueuing on a MessageQueue.  The enqueue constructor exists so
that absence of queue use is expressible; the handler never emits it. -/
inductive FAction where
  | sleep_for (seconds : ℚ)
  | forward_call (destination : Int) (m : Message)
  | inc_forwarded
  | init_client
  | enqueue (destination : Int) (m : Message)
  deriving DecidableEq, Repr

def FAction.is_enqueue : FAction → Bool
  | FAction.enqueue _ _ => true
  | _ => false

/-- Outcome of the client.forward_messages call: success, FloodWaitError
with the server wait, an exception whose text mentions a missing input
entity, or any other exception. -/
inductive ForwardOutcome where
  | ok
  | flood_wait (seconds : Nat)
  | entity_error
  | other_error
  deriving DecidableEq, Repr

/-- What forward_handler reads from the incoming event: whether
event.message is set, the message itself, and the chat resolved by
event.get_chat (none when falsy). -/
structure FwdEvent where
  has_message : Bool
  message : Message
  chat : Option Int
  deriving DecidableEq, Repr

/-- The trailing actions of the forward attempt, by outcome: the forward
call itself, then the metric bump on success, the flood sleep on
FloodWaitError, the client re-initialisation on a missing-entity error,
and nothing more on other errors. -/
def forward_result_actions (channel_id : Int) (m : Message)
    (outcome : ForwardOutcome) : List FAction :=
  match outcome with
  | ForwardOutcome.ok =>
    [FAction.forward_call channel_id m, FAction.inc_forwarded]
  | ForwardOutcome.flood_wait n =>
    [FAction.forward_call channel_id m, FAction.sleep_for (n : ℚ)]
  | ForwardOutcome.entity_error =>
    [FAction.forward_call channel_id m, FAction.init_client]
  | ForwardOutcome.other_error =>
    [FAction.forward_call channel_id m]

/-- The forward_handler closure registered by setup_message_forwarding:
drop events without a message, or when the connection cannot be ensured,
or duplicates, or events whose chat cannot be resolved or is not among
the folder peers; otherwise sleep FORWARD_DELAY and forward directly on
the client.  Returns the emitted actions and the updated dedup cache. -/
def forward_handler (cache : List ((Int × Int × Nat) × Nat))
    (included_peers : List Int) (channel_id : Int) (ev : FwdEvent)
    (connected : Bool) (now : Nat) (outcome : ForwardOutcome) :
    List FAction × List ((Int × Int × Nat) × Nat) :=
  if ¬ ev.has_message then ([], cache)
  else if ¬ connected then ([], cache)
  else
    let d := is_duplicate cache ev.message now
    if d.1 then ([], d.2)
    else
      match ev.chat with
      | none => ([], d.2)
      | some cid =>
        if cid ∈ included_peers then
          (FAction.sleep_for FORWARD_DELAY ::
            forward_result_actions channel_id ev.message outcome, d.2)
        else ([], d.2)

theorem forward_result_actions_no_enqueue (channel_id : Int) (m : Message)
    (outcome : ForwardOutcome) :
    ((forward_result_actions channel_id m outcome).all
      fun a => ! a.is_enqueue) = true := by
  cases outcome <;> rfl

/-- C2 counterexample: a fresh, connected event from member chat 5 is
forwarded DIRECTLY by the event handler (after the inline FORWARD_DELAY
sleep); no enqueue action ever occurs, so the forward call is not issued
by a queue worker, refuting the claim that live forwarding goes through
the per-destination queueing pipeline. -/
theorem C2_counterexample :
    (forward_handler [] [5] 777 ⟨true, ⟨5, 100⟩, some 5⟩ true 10
      ForwardOutcome.ok).1 =
      [FAction.sleep_for FORWARD_DELAY, FAction.forward_call 777 ⟨5, 100⟩,
       FAction.inc_forwarded] ∧
    ((forward_handler [] [5] 777 ⟨true, ⟨5, 100⟩, some 5⟩ true 10
      ForwardOutcome.ok).1.all fun a => ! a.is_enqueue) = true := by
  refine ⟨rfl, rfl⟩

/-- C2 amended: for every non-duplicate inbound event whose chat belongs
to the folder, the registered event handler itself sleeps FORWARD_DELAY
and then invokes the forward call directly on the session client; no
action of the handler enqueues anything, so the per-destination queue
manager is not part of the live forwarding path. -/
theorem C2_direct_forwarding (cache : List ((Int × Int × Nat) × Nat))
    (peers : List Int) (channel_id : Int) (ev : FwdEvent) (now : Nat)
    (outcome : ForwardOutcome) (cid : Int)
    (hmsg : ev.has_message = true)
    (hfresh : alookup (get_message_key ev.message now) cache = none)
    (hchat : ev.chat = some cid)
    (hmem : cid ∈ peers) :
    (forward_handler cache peers channel_id ev true now outcome).1 =
      FAction.sleep_for FORWARD_DELAY ::
        forward_result_actions channel_id ev.message outcome ∧
    ((forward_handler cache peers channel_id ev true now outcome).1.all
      fun a => ! a.is_enqueue) = true := by
  have hdup := is_duplicate_of_fresh cache ev.message now hfresh
  have heq : (forward_handler cache peers channel_id ev true now outcome).1 =
      FAction.sleep_for FORWARD_DELAY ::
        forward_result_actions channel_id ev.message outcome := by
    simp [forward_handler, hmsg, hdup, hchat, hmem]
  refine ⟨heq, ?_⟩
  rw [heq]
  cases outcome <;> rfl

/-- Witness for C2_direct_forwarding at a concrete fresh event. -/
theorem C2_direct_forwarding_witness :
    (⟨true, ⟨5, 100⟩, some 5⟩ : FwdEvent).has_message = true ∧
    alookup (get_message_key (⟨5, 100⟩ : Message) 10)
      ([] : List ((Int × Int × Nat) × Nat)) = none ∧
    (⟨true, ⟨5, 100⟩, some 5⟩ : FwdEvent).chat = some 5 ∧
    (5 : Int) ∈ [(5 : Int)] ∧
    ((forward_handler [] [5] 777 ⟨true, ⟨5, 100⟩, some 5⟩ true 10
        (ForwardOutcome.flood_wait 30)).1 =
      FAction.sleep_for FORWARD_DELAY ::
        forward_result_actions 777 ⟨5, 100⟩ (ForwardOutcome.flood_wait 30) ∧
    ((forward_handler [] [5] 777 ⟨true, ⟨5, 100⟩, some 5⟩ true 10
        (ForwardOutcome.flood_wait 30)).1.all fun a => ! a.is_enqueue) = true) :=
  ⟨rfl, rfl, rfl, by decide,
    C2_direct_forwarding [] [5] 777 ⟨true, ⟨5, 100⟩, some 5⟩ 10
      (ForwardOutcome.flood_wait 30) 5 rfl rfl rfl (by decide)⟩

/-! ## Folder deactivation (handlers.py, deactivate_folder) -/

/-- The per-user in-memory state touched by deactivate_folder: the
active_folders map, the folder_handlers map, and the set of event
handlers registered on the Telethon client. -/
structure UserSessionState where
  active_folders : List (String × ActiveFolder)
  folder_handlers : List (String × Nat)
  client_handlers : List Nat
  deriving DecidableEq, Repr

/-- client.remove_event_handler: deregisters the handler. -/
def remove_event_handler (handlers : List Nat) (h : Nat) : List Nat :=
  handlers.filter fun x => decide (x ≠ h)

/-- handlers.py deactivate_folder: stop queue processing for the bound
channel when the folder is active, deregister and forget the event
handler when one is registered, and remove the folder from
active_folders.  The persisted folder_channels store is passed through
untouched: the function calls neither load_session nor save_session. -/
def deactivate_folder (us : UserSessionState) (mq : MessageQueue)
    (persisted : List (String × ChannelData)) (folder_id_str : String) :
    UserSessionState × MessageQueue × List (String × ChannelData) :=
  let mq1 := match alookup folder_id_str us.active_folders with
    | some af => stop_processing mq af.channel_id
    | none => mq
  let us1 := match alookup folder_id_str us.folder_handlers with
    | some h =>
      { us with
        client_handlers := remove_event_handler us.client_handlers h,
        folder_handlers := aerase folder_id_str us.folder_handlers }
    | none => us
  let us2 := if (alookup folder_id_str us1.active_folders).isSome
             then { us1 with active_folders := aerase folder_id_str us1.active_folders }
             else us1
  (us2, mq1, persisted)

theorem not_mem_remove_event_handler (l : List Nat) (h : Nat) :
    h ∉ remove_event_handler l h := by
  unfold remove_event_handler
  intro hmem
  have := List.of_mem_filter hmem
  simp at this

theorem task_status_set_ne_running (s : MessageQueue) (tid : Nat) :
    task_status (set_task_status s tid TaskStatus.cancelRequested) tid ≠
      TaskStatus.running := by
  unfold task_status set_task_status
  induction s.all_tasks with
  | nil => simp
  | cons h tl ih =>
    by_cases he : h.tid = tid
    · rw [List.map_cons, if_pos he,
        List.find?_cons_of_pos _ (by simpa using he)]
      simp
    · rw [List.map_cons, if_neg he,
        List.find?_cons_of_neg _ (by simpa using he)]
      exact ih

theorem stop_processing_kills (mq : MessageQueue) (c : Int) (tid : Nat)
    (h : alookup c mq.tasks = some tid) :
    task_status (stop_processing mq c) tid ≠ TaskStatus.running := by
  have hall : (stop_processing mq c).all_tasks = (cancel_task mq tid).all_tasks := by
    simp [stop_processing, h]
  by_cases hc : task_status mq tid = TaskStatus.completed
  · have hall2 : (stop_processing mq c).all_tasks = mq.all_tasks := by
      rw [hall]
      unfold cancel_task
      rw [if_pos hc]
    have : task_status (stop_processing mq c) tid = task_status mq tid := by
      unfold task_status
      rw [hall2]
    rw [this, hc]
    simp
  · have hall2 : (stop_processing mq c).all_tasks =
        (set_task_status mq tid TaskStatus.cancelRequested).all_tasks := by
      rw [hall]
      unfold cancel_task
      rw [if_neg hc]
    have : task_status (stop_processing mq c) tid =
        task_status (set_task_status mq tid TaskStatus.cancelRequested) tid := by
      unfold task_status
      rw [hall2]
    rw [this]
    exact task_status_set_ne_running mq tid

/-- C9: deactivating an active folder stops the queue worker of the
bound channel (the worker is deregistered and no longer running),
deregisters the live event handler, and removes the folder from the
active-folder map, while the persisted folder-to-channel store is
returned unchanged (neither load_session nor save_session is called),
so a later reactivation can reuse the same channel. -/
theorem C9_deactivate_frame (us : UserSessionState) (mq : MessageQueue)
    (persisted : List (String × ChannelData)) (fid : String)
    (af : ActiveFolder) (h : Nat)
    (haf : alookup fid us.active_folders = some af)
    (hh : alookup fid us.folder_handlers = some h) :
    (deactivate_folder us mq persisted fid).2.2 = persisted ∧
    alookup fid (deactivate_folder us mq persisted fid).1.active_folders = none ∧
    alookup fid (deactivate_folder us mq persisted fid).1.folder_handlers = none ∧
    h ∉ (deactivate_folder us mq persisted fid).1.client_handlers ∧
    alookup af.channel_id (deactivate_folder us mq persisted fid).2.1.tasks = none ∧
    (∀ tid, alookup af.channel_id mq.tasks = some tid →
      task_status (deactivate_folder us mq persisted fid).2.1 tid ≠
        TaskStatus.running) := by
  have hmq : (deactivate_folder us mq persisted fid).2.1 =
      stop_processing mq af.channel_id := by
    simp [deactivate_folder, haf]
  have hactive : (deactivate_folder us mq persisted fid).1.active_folders =
      aerase fid us.active_folders := by
    simp [deactivate_folder, haf, hh]
  have hfh : (deactivate_folder us mq persisted fid).1.folder_handlers =
      aerase fid us.folder_handlers := by
    simp [deactivate_folder, haf, hh]
  have hcl : (deactivate_folder us mq persisted fid).1.client_handlers =
      remove_event_handler us.client_handlers h := by
    simp [deactivate_folder, haf, hh]
  refine ⟨rfl, ?_, ?_, ?_, ?_, ?_⟩
  · rw [hactive]
    exact alookup_aerase_self fid us.active_folders
  · rw [hfh]
    exact alookup_aerase_self fid us.folder_handlers
  · rw [hcl]
    exact not_mem_remove_event_handler us.client_handlers h
  · rw [hmq, stop_processing_tasks]
    exact alookup_aerase_self af.channel_id mq.tasks
  · intro tid htid
    rw [hmq]
    exact stop_processing_kills mq af.channel_id tid htid

/-- Witness for C9_deactivate_frame: folder 4 active on channel 20 with
handler 6 registered and a running worker for channel 20. -/
theorem C9_deactivate_frame_witness :
    alookup "4" [("4", ActiveFolder.mk 20 "F")] = some (ActiveFolder.mk 20 "F") ∧
    alookup "4" [("4", (6 : Nat))] = some 6 ∧
    ((deactivate_folder ⟨[("4", ActiveFolder.mk 20 "F")], [("4", 6)], [6]⟩
        (start_processing init_queue 20) [("4", ChannelData.mk 20 "F" 1)] "4").2.2 =
      [("4", ChannelData.mk 20 "F" 1)] ∧
    alookup "4" ((deactivate_folder ⟨[("4", ActiveFolder.mk 20 "F")], [("4", 6)], [6]⟩
        (start_processing init_queue 20) [("4", ChannelData.mk 20 "F" 1)] "4").1.active_folders) = none ∧
    alookup "4" ((deactivate_folder ⟨[("4", ActiveFolder.mk 20 "F")], [("4", 6)], [6]⟩
        (start_processing init_queue 20) [("4", ChannelData.mk 20 "F" 1)] "4").1.folder_handlers) = none ∧
    (6 : Nat) ∉ ((deactivate_folder ⟨[("4", ActiveFolder.mk 20 "F")], [("4", 6)], [6]⟩
        (start_processing init_queue 20) [("4", ChannelData.mk 20 "F" 1)] "4").1.client_handlers) ∧
    alookup (ActiveFolder.mk 20 "F").channel_id
      ((deactivate_folder ⟨[("4", ActiveFolder.mk 20 "F")], [("4", 6)], [6]⟩
        (start_processing init_queue 20) [("4", ChannelData.mk 20 "F" 1)] "4").2.1.tasks) = none ∧
    (∀ tid, alookup (ActiveFolder.mk 20 "F").channel_id
        (start_processing init_queue 20).tasks = some tid →
      task_status ((deactivate_folder ⟨[("4", ActiveFolder.mk 20 "F")], [("4", 6)], [6]⟩
        (start_processing init_queue 20) [("4", ChannelData.mk 20 "F" 1)] "4").2.1) tid ≠
        TaskStatus.running)) :=
  ⟨by decide, by decide,
    C9_deactivate_frame ⟨[("4", ActiveFolder.mk 20 "F")], [("4", 6)], [6]⟩
      (start_processing init_queue 20) [("4", ChannelData.mk 20 "F" 1)] "4"
      (ActiveFolder.mk 20 "F") 6 (by decide) (by decide)⟩
